import Mathlib

/-!
Verification of the scheduling core of `Manictest1.py` (nail-salon booking
bot).  The Python source stores bookings in a SQLite table accessed through
SQLModel; we embed the `booking` table as a `List Booking` and each handler
as a pure function from the table (plus its inputs) to an updated table
together with the outbound notification events it emits.

Encoding conventions, fixed once for the whole file:
* `date` (ISO string `YYYY-MM-DD` in the source, always produced by
  `generate_dates`) is embedded as a day index `Nat`; `time` (string
  `HH:MM`, always one of the fixed template slots) as minutes after
  midnight.  The denoted instant of a booking is `date * 1440 + time`
  minutes, and `datetime` values (`now`) are minutes on the same axis, so
  the source's `datetime` comparisons become `Nat`/`Int` comparisons.
  The `fromisoformat`/`strptime` parse-failure branches of the source can
  only fire on malformed strings, which the bot never writes; they are
  unrepresentable here.
* SQLAlchemy's `one_or_none()` raises `MultipleResultsFound` on two or more
  rows; we embed it as `Except Unit` with `.error ()` for the raising case.
  A handler result records the table as left by the commits that did
  happen, the events emitted before any uncaught exception, and whether the
  handler finished normally (`ok`).
* Python truthiness tests on `Optional[int]` fields (`if master_id:`,
  `if chat_id:`) are `false` for both `None` and `0`; `masterTruthy` /
  `chatTruthy` embed exactly that.
* `created_at` (a wall-clock ISO timestamp, only used for display ordering)
  is not modelled; no claim depends on it.
-/

namespace Manic

/-- The `Booking` SQLModel table row (`Manictest1.py`, class `Booking`). -/
structure Booking where
  id : Nat
  user_id : Nat
  chat_id : Option Nat
  client_name : String
  client_username : Option String
  phone : String
  date : Nat
  time : Nat
  status : String
  master_id : Option Nat
deriving DecidableEq, Repr

/-- The `User` SQLModel table row (roles only matter for permission checks). -/
structure SalonUser where
  id : Nat
  telegram_id : Nat
  name : Option String
  phone : Option String
  is_master : Bool
  is_admin : Bool
deriving DecidableEq, Repr

/-- Outbound messages sent by the handlers, abstracted to semantic events. -/
inductive Event where
  | accessDenied (actor : Nat)
  | bookingNotFound (actor : Nat)
  | slotTaken (user date time : Nat)
  | noFreeSlots (user date : Nat)
  | newBookingAdmin (admin bid : Nat)
  | newBookingMaster (master bid : Nat)
  | bookingCreated (user bid : Nat)
  | clientConfirmed (chat date time : Nat)
  | masterConfirmedInfo (master bid : Nat)
  | clientCancelledByAdmin (chat : Nat)
  | clientCancelledByMaster (user bid : Nat)
  | reminderDue (chat bid hours : Nat)
deriving DecidableEq, Repr

/-- The instant denoted by a booking's `date`/`time`, in minutes. -/
def instant (b : Booking) : Nat :=
  b.date * 1440 + b.time

/-- Python truthiness of an `Optional[int]` master id (`if master_id:`). -/
def masterTruthy : Option Nat → Bool
  | none => false
  | some m => m != 0

/-- Python truthiness of an `Optional[int]` chat id (`if chat_id:`). -/
def chatTruthy : Option Nat → Bool
  | none => false
  | some c => c != 0

/-- `one_or_none()`: `none` for zero rows, the row for one, raise for more. -/
def one_or_none : List α → Except Unit (Option α)
  | [] => .ok none
  | [a] => .ok (some a)
  | _ => .error ()

/-- The row predicate of the query inside `is_time_slot_free`:
`Booking.date == date_iso`, `Booking.time == time_slot`,
`Booking.status != "cancelled"`, plus `Booking.master_id == master_id`
when `master_id` is truthy (SQL `NULL = m` is not satisfied, so an
unassigned row never matches a truthy filter). -/
def bookingMatches (d t : Nat) (m : Option Nat) (b : Booking) : Bool :=
  b.date == d && b.time == t && b.status != "cancelled" &&
    (if masterTruthy m then b.master_id == m else true)

/-- `get_booked_times_for_date(date_iso, master_id)`. -/
def get_booked_times_for_date (db : List Booking) (d : Nat) (m : Option Nat) :
    List Nat :=
  (db.filter (fun b =>
    b.date == d && b.status != "cancelled" &&
      (if masterTruthy m then b.master_id == m else true))).map (fun b => b.time)

/-- `is_time_slot_free(date_iso, time_slot, master_id)`: free iff the
conflict query returns no row; raises (`.error`) on two or more rows. -/
def is_time_slot_free (db : List Booking) (d t : Nat) (m : Option Nat) :
    Except Unit Bool :=
  (one_or_none (db.filter (bookingMatches d t m))).map (fun o => o.isNone)

/-- `generate_dates(num_days)`: `today`, `today+1`, …, `today+num_days-1`. -/
def generate_dates (today : Nat) (numDays : Nat) : List Nat :=
  (List.range numDays).map (fun i => today + i)

/-- `default_time_slots()` = 10:00 … 17:00, as minutes after midnight. -/
def default_time_slots : List Nat :=
  [600, 660, 720, 780, 900, 960, 1020]

/-- The per-row body of `mark_past_bookings`: rows selected by
`status.notin_(["cancelled", "past"])` whose instant is strictly before
`now` are set to `"past"`; every other row is untouched. -/
def markPastOne (now : Nat) (b : Booking) : Booking :=
  if b.status ≠ "cancelled" ∧ b.status ≠ "past" ∧ instant b < now then
    { b with status := "past" }
  else b

/-- `mark_past_bookings()` over the whole table, at sweep instant `now`. -/
def mark_past_bookings (now : Nat) (db : List Booking) : List Booking :=
  db.map (markPastOne now)

/-- Commit of an in-place status mutation of the row with primary key
`bid` (`booking.status = ...; session.add(booking); session.commit()`). -/
def updateStatus (db : List Booking) (bid : Nat) (st : String) : List Booking :=
  db.map (fun b => if b.id == bid then { b with status := st } else b)

/-- Result of running one handler: the table as left by the commits that
happened, the events emitted before any uncaught exception, and whether the
handler finished without raising. -/
structure HResult where
  db : List Booking
  events : List Event
  ok : Bool
deriving DecidableEq, Repr

/-- The FSM data accumulated by the booking conversation when the
time-selection callback fires (`state.get_data()` in `booking_time_chosen`). -/
structure SessionData where
  user_id : Nat
  chat_id : Nat
  client_name : String
  client_username : Option String
  phone : String
  date : Nat
  master_id : Option Nat
deriving DecidableEq, Repr

/-- SQLite's autoincrement primary key for a fresh row. -/
def nextId (db : List Booking) : Nat :=
  (db.map (fun b => b.id)).foldl max 0 + 1

/-- `booking_date_chosen`: the time slots presented for a chosen date —
the fixed template minus the booked times; `now` plays no part. -/
def booking_date_chosen_slots (db : List Booking) (d : Nat) (m : Option Nat) :
    List Nat :=
  default_time_slots.filter (fun t =>
    !((get_booked_times_for_date db d m).contains t))

/-- Outcome of the phone-collection step. -/
inductive PhoneStep where
  | reprompt
  | advanced (phone : String)
deriving DecidableEq, Repr

/-- `phone.startswith("+")`. -/
def startsWithPlus (s : String) : Bool :=
  match s.data with
  | [] => false
  | c :: _ => c == '+'

/-- `booking_phone`: accept the (already-stripped) message text iff
`phone.startswith("+") and len(phone) >= 9`; otherwise re-prompt without
advancing the conversation. -/
def booking_phone (phone : String) : PhoneStep :=
  if ¬ (startsWithPlus phone = true ∧ 9 ≤ phone.length) then .reprompt
  else .advanced phone

/-- Modelled from the spec: the "international-dialing pattern (leading
`+`, 10-15 digits total)" that §4.3 says the phone step enforces.  This
definition follows the spec's words and exists only to be compared with
`booking_phone`, which follows the source. -/
def spec_phone_ok (phone : String) : Bool :=
  match phone.data with
  | '+' :: rest =>
      rest.all Char.isDigit && decide (10 ≤ rest.length) &&
        decide (rest.length ≤ 15)
  | _ => false

/-- The fresh `Booking(...)` row inserted by `booking_time_chosen` when the
slot is free: status defaults to `"pending"`. -/
def newBookingOf (db : List Booking) (s : SessionData) (t : Nat) : Booking :=
  { id := nextId db, user_id := s.user_id, chat_id := some s.chat_id,
    client_name := s.client_name, client_username := s.client_username,
    phone := s.phone, date := s.date, time := t, status := "pending",
    master_id := s.master_id }

/-- `booking_time_chosen`: re-check the slot with `is_time_slot_free`; if
taken, inform the client and insert nothing; if free, insert a new
`pending` booking and notify admins, the chosen master (or every master
when none was chosen), and the client.  A raise from `one_or_none` aborts
the handler before any commit. -/
def booking_time_chosen (admins masters : List Nat) (db : List Booking)
    (s : SessionData) (t : Nat) : HResult :=
  match is_time_slot_free db s.date t s.master_id with
  | .error _ => ⟨db, [], false⟩
  | .ok false => ⟨db, [.slotTaken s.user_id s.date t], true⟩
  | .ok true =>
      let bid := nextId db
      let b : Booking := newBookingOf db s t
      let db1 := db ++ [b]
      let evs :=
        admins.map (fun a => Event.newBookingAdmin a bid) ++
        (if masterTruthy s.master_id then
          [Event.newBookingMaster (s.master_id.getD 0) bid]
        else masters.map (fun m => Event.newBookingMaster m bid)) ++
        [Event.bookingCreated s.user_id bid]
      ⟨db1, evs, true⟩

/-- The first transaction of `admin_confirm`: commit `status = "confirmed"`
on the row with primary key `bid`. -/
def adminConfirmTxn1 (db : List Booking) (bid : Nat) : List Booking :=
  updateStatus db bid "confirmed"

/-- `admin_confirm`: after the admin check and the lookup, the handler
commits `status = "confirmed"`, notifies client and master, and then — the
stray mis-indented block left over from the nested `admin_cancel`
definition — re-fetches the row, commits `status = "cancelled"`, and sends
the client a cancellation message (this last send is unguarded, so a
falsy `chat_id` raises after the second commit). -/
def admin_confirm (adminIds : List Nat) (actor : Nat) (db : List Booking)
    (bid : Nat) : HResult :=
  if adminIds.contains actor then
    match one_or_none (db.filter (fun x => x.id == bid)) with
    | .error _ => ⟨db, [], false⟩
    | .ok none => ⟨db, [.bookingNotFound actor], true⟩
    | .ok (some b) =>
        let db1 := adminConfirmTxn1 db bid
        let evs1 :=
          (if chatTruthy b.chat_id then
            [Event.clientConfirmed (b.chat_id.getD 0) b.date b.time]
          else []) ++
          (if masterTruthy b.master_id then
            [Event.masterConfirmedInfo (b.master_id.getD 0) bid]
          else [])
        match db1.find? (fun x => x.id == bid) with
        | none => ⟨db1, evs1 ++ [.bookingNotFound actor], true⟩
        | some _ =>
            let db2 := updateStatus db1 bid "cancelled"
            if chatTruthy b.chat_id then
              ⟨db2, evs1 ++ [.clientCancelledByAdmin (b.chat_id.getD 0)], true⟩
            else ⟨db2, evs1, false⟩
  else ⟨db, [.accessDenied actor], true⟩

/-- `master_cancel`: permission check against `MASTER_IDS` and the `User`
table, then fetch the booking by id and commit `status = "cancelled"`,
notifying the client (inside `try/except`, so that send never raises). -/
def master_cancel (masterIds : List Nat) (users : List SalonUser)
    (actor : Nat) (db : List Booking) (bid : Nat) : HResult :=
  match one_or_none (users.filter (fun u => u.telegram_id == actor)) with
  | .error _ => ⟨db, [], false⟩
  | .ok uo =>
      let is_m := masterIds.contains actor ||
        (match uo with | some u => u.is_master | none => false)
      if is_m then
        match one_or_none (db.filter (fun x => x.id == bid)) with
        | .error _ => ⟨db, [], false⟩
        | .ok none => ⟨db, [.bookingNotFound actor], true⟩
        | .ok (some b) =>
            ⟨updateStatus db bid "cancelled",
             [.clientCancelledByMaster b.user_id bid], true⟩
      else ⟨db, [.accessDenied actor], true⟩

/-- The reminder window test of `reminder_loop`:
`timedelta(hours=h-0.1) <= visit_dt - now <= timedelta(hours=h+0.1)`,
i.e. `h*60 - 6 <= delta <= h*60 + 6` in whole minutes. -/
def windowHit (visit now : Nat) (h : Nat) : Bool :=
  decide ((h : Int) * 60 - 6 ≤ (visit : Int) - (now : Int)) &&
    decide ((visit : Int) - (now : Int) ≤ (h : Int) * 60 + 6)

/-- One `(booking, hours)` step of the reminder sweep: skip if the key was
already recorded in `sent`; otherwise, if the window is hit and the send
succeeds, emit the reminder and record the key (a failed send is caught
and records nothing, so it is retried on a later sweep). -/
def remindOne (sendOk : Nat → Nat → Bool) (now : Nat) (b : Booking) (h : Nat)
    (acc : List (Nat × Nat) × List Event) : List (Nat × Nat) × List Event :=
  if (b.id, h) ∈ acc.1 then acc
  else if windowHit (instant b) now h && sendOk b.id h then
    ((b.id, h) :: acc.1, acc.2 ++ [Event.reminderDue (b.chat_id.getD 0) b.id h])
  else acc

/-- Per-booking body of the sweep: rows with a falsy `chat_id` are skipped,
otherwise the 24h window is tried and then the 2h window. -/
def remindBooking (sendOk : Nat → Nat → Bool) (now : Nat)
    (acc : List (Nat × Nat) × List Event) (b : Booking) :
    List (Nat × Nat) × List Event :=
  if chatTruthy b.chat_id then
    remindOne sendOk now b 2 (remindOne sendOk now b 24 acc)
  else acc

/-- One iteration of `reminder_loop` at instant `now`: scan the rows with
`status == "confirmed"`, carrying the in-process `sent` set across sweeps;
returns the grown `sent` set and the reminders dispatched this sweep. -/
def reminder_sweep (sendOk : Nat → Nat → Bool) (sent : List (Nat × Nat))
    (db : List Booking) (now : Nat) : List (Nat × Nat) × List Event :=
  (db.filter (fun b => b.status == "confirmed")).foldl
    (remindBooking sendOk now) (sent, [])

/-! ### Concrete fixtures used by witnesses and counterexamples -/

/-- A pending booking for any master on day 5 at 10:00. -/
def bkPending : Booking :=
  { id := 1, user_id := 100, chat_id := some 100, client_name := "A",
    client_username := none, phone := "+79171234567", date := 5, time := 600,
    status := "pending", master_id := none }

def bkCancelled : Booking := { bkPending with status := "cancelled" }

def bkConfirmed : Booking := { bkPending with status := "confirmed" }

/-- A completed booking session about to pick a time on day 5, any master. -/
def sessAny : SessionData :=
  { user_id := 100, chat_id := 100, client_name := "A",
    client_username := none, phone := "+79171234567", date := 5,
    master_id := none }

/-- The same session but with master 5 selected. -/
def sessM5 : SessionData := { sessAny with master_id := some 5 }

/-! ### Supporting lemmas -/

theorem is_free_ok_true_iff (db : List Booking) (d t : Nat) (m : Option Nat) :
    is_time_slot_free db d t m = .ok true ↔
      db.filter (bookingMatches d t m) = [] := by
  cases h : db.filter (bookingMatches d t m) with
  | nil => simp [is_time_slot_free, h, one_or_none, Except.map]
  | cons a l =>
      cases l <;> simp [is_time_slot_free, h, one_or_none, Except.map]

theorem is_free_of_no_match (db : List Booking) (d t : Nat) (m : Option Nat)
    (h : ∀ b ∈ db, bookingMatches d t m b = false) :
    is_time_slot_free db d t m = .ok true := by
  rw [is_free_ok_true_iff, List.filter_eq_nil_iff]
  intro a ha
  simp [h a ha]

/-- The freshly inserted row satisfies its own conflict predicate. -/
theorem newBooking_matches (db : List Booking) (s : SessionData) (t : Nat) :
    bookingMatches s.date t s.master_id (newBookingOf db s t) = true := by
  simp [bookingMatches, newBookingOf]

theorem is_free_append_matching (db : List Booking) (d t : Nat)
    (m : Option Nat) (b : Booking)
    (hnil : db.filter (bookingMatches d t m) = [])
    (hb : bookingMatches d t m b = true) :
    is_time_slot_free (db ++ [b]) d t m = .ok false := by
  simp [is_time_slot_free, List.filter_append, hnil, List.filter_cons, hb,
    one_or_none, Except.map]

/-! ### Claims -/

/-- C1.  Mutual exclusion at the time-selection step: if a non-cancelled
booking already occupies the selected `(master_id, date, time)` key, the
handler leaves the table unchanged — no second booking is inserted — and
(whenever the conflict is the single one the invariant allows, so the
lookup does not raise) the handler completes normally and the client is
told the slot is taken. -/
theorem conflict_blocks_insert (admins masters : List Nat) (db : List Booking)
    (s : SessionData) (t : Nat)
    (hconf : ∃ b ∈ db, bookingMatches s.date t s.master_id b = true) :
    (booking_time_chosen admins masters db s t).db = db ∧
      ((db.filter (bookingMatches s.date t s.master_id)).length = 1 →
        (booking_time_chosen admins masters db s t).ok = true ∧
          Event.slotTaken s.user_id s.date t ∈
            (booking_time_chosen admins masters db s t).events) := by
  obtain ⟨b, hb, hmatch⟩ := hconf
  cases hfl : db.filter (bookingMatches s.date t s.master_id) with
  | nil =>
      rw [List.filter_eq_nil_iff] at hfl
      exact absurd hmatch (by simpa using hfl b hb)
  | cons a l =>
      cases l with
      | nil =>
          refine ⟨?_, fun _ => ⟨?_, ?_⟩⟩ <;>
            simp [booking_time_chosen, is_time_slot_free, hfl, one_or_none,
              Except.map]
      | cons c l2 =>
          refine ⟨?_, fun hlen => ?_⟩
          · simp [booking_time_chosen, is_time_slot_free, hfl, one_or_none,
              Except.map]
          · simp at hlen

/-- Witness for C1 at a concrete conflicting table. -/
theorem conflict_blocks_insert_witness :
    (booking_time_chosen [] [] [bkPending] sessAny 600).db = [bkPending] ∧
      (booking_time_chosen [] [] [bkPending] sessAny 600).ok = true ∧
      Event.slotTaken 100 5 600 ∈
        (booking_time_chosen [] [] [bkPending] sessAny 600).events := by
  have h := conflict_blocks_insert [] [] [bkPending] sessAny 600
    ⟨bkPending, by decide, by decide⟩
  exact ⟨h.1, (h.2 (by decide)).1, (h.2 (by decide)).2⟩

/-- C5.  Create/offerability round-trip: if the slot-free check reports the
selected key free, the handler completes normally and, on the table it
commits, the same `(master_id, date, time)` key is no longer free. -/
theorem create_consumes_slot (admins masters : List Nat) (db : List Booking)
    (s : SessionData) (t : Nat)
    (hfree : is_time_slot_free db s.date t s.master_id = .ok true) :
    (booking_time_chosen admins masters db s t).ok = true ∧
      is_time_slot_free (booking_time_chosen admins masters db s t).db
        s.date t s.master_id = .ok false := by
  have hnil : db.filter (bookingMatches s.date t s.master_id) = [] :=
    (is_free_ok_true_iff db s.date t s.master_id).mp hfree
  have hrun : booking_time_chosen admins masters db s t =
      ⟨db ++ [newBookingOf db s t],
        admins.map (fun a => Event.newBookingAdmin a (nextId db)) ++
          (if masterTruthy s.master_id then
            [Event.newBookingMaster (s.master_id.getD 0) (nextId db)]
          else masters.map (fun m => Event.newBookingMaster m (nextId db))) ++
          [Event.bookingCreated s.user_id (nextId db)], true⟩ := by
    simp [booking_time_chosen, is_time_slot_free, hnil, one_or_none,
      Except.map]
  rw [hrun]
  exact ⟨rfl, is_free_append_matching db s.date t s.master_id _ hnil
    (newBooking_matches db s t)⟩

/-- Witness for C5 at a concrete free table. -/
theorem create_consumes_slot_witness :
    (booking_time_chosen [] [] [] sessM5 600).ok = true ∧
      is_time_slot_free (booking_time_chosen [] [] [] sessM5 600).db
        5 600 (some 5) = .ok false := by
  have h := create_consumes_slot [] [] [] sessM5 600 rfl
  exact h

theorem updateStatus_status (db : List Booking) (bid : Nat) (st : String) :
    ∀ x ∈ updateStatus db bid st, x.id = bid → x.status = st := by
  intro x hx hid
  rw [updateStatus, List.mem_map] at hx
  obtain ⟨y, hy, rfl⟩ := hx
  by_cases h : (y.id == bid) = true
  · simp [h]
  · simp [h] at hid ⊢
    exact absurd (by simp [hid]) h

/-- C2.  (code bug)  Confirming the pending booking `bkPending` as admin 7:
the handler does emit the confirmation notification, but its stray trailing
block (the mis-indented remnant of `admin_cancel`) then commits
`status = "cancelled"` and messages the client a cancellation, so the
operation ends with the booking cancelled, not confirmed. -/
theorem admin_confirm_ends_cancelled :
    (admin_confirm [7] 7 [bkPending] 1).db.map Booking.status = ["cancelled"] ∧
      Event.clientConfirmed 100 5 600 ∈
        (admin_confirm [7] 7 [bkPending] 1).events ∧
      Event.clientCancelledByAdmin 100 ∈
        (admin_confirm [7] 7 [bkPending] 1).events ∧
      (admin_confirm [7] 7 [bkPending] 1).ok = true := by
  decide

/-- C3 counterexample.  On the cancelled booking `bkCancelled`,
`admin_confirm` is not an `InvalidTransition` no-op: its first transaction
commits the cancelled row with `status = "confirmed"`, and a confirmation
notification is emitted to the client. -/
theorem confirm_on_cancelled_not_rejected :
    (adminConfirmTxn1 [bkCancelled] 1).map Booking.status = ["confirmed"] ∧
      Event.clientConfirmed 100 5 600 ∈
        (admin_confirm [7] 7 [bkCancelled] 1).events := by
  decide

/-- C3 amended.  `admin_confirm` performs no status validation: on an
appointment whose status is `"cancelled"`, the first transaction commits
`status = "confirmed"` and a confirmation notification is sent to the
client; the stray trailing block then commits `status = "cancelled"` again
and messages the client a cancellation, so the operation ends with the
stored status `"cancelled"` — but by accident, not by rejecting the
transition. -/
theorem confirm_on_cancelled_behavior (adminIds : List Nat) (actor : Nat)
    (db : List Booking) (bid : Nat) (b : Booking) (c : Nat)
    (ha : adminIds.contains actor = true)
    (hb : db.filter (fun x => x.id == bid) = [b])
    (_hst : b.status = "cancelled")
    (hc : b.chat_id = some c) (hc0 : c ≠ 0) :
    (∀ x ∈ adminConfirmTxn1 db bid, x.id = bid → x.status = "confirmed") ∧
      (∀ x ∈ (admin_confirm adminIds actor db bid).db,
        x.id = bid → x.status = "cancelled") ∧
      Event.clientConfirmed c b.date b.time ∈
        (admin_confirm adminIds actor db bid).events ∧
      Event.clientCancelledByAdmin c ∈
        (admin_confirm adminIds actor db bid).events ∧
      (admin_confirm adminIds actor db bid).ok = true := by
  have hmem : b ∈ db ∧ (b.id == bid) = true := by
    have hbm : b ∈ db.filter (fun x => x.id == bid) := by
      rw [hb]; exact List.mem_singleton.mpr rfl
    simpa using List.mem_filter.mp hbm
  have hex : ∃ x ∈ adminConfirmTxn1 db bid, (x.id == bid) = true := by
    refine ⟨{ b with status := "confirmed" }, ?_, by simpa using hmem.2⟩
    rw [adminConfirmTxn1, updateStatus, List.mem_map]
    exact ⟨b, hmem.1, by simp [hmem.2]⟩
  have hsome := List.find?_isSome.mpr hex
  cases hf : (adminConfirmTxn1 db bid).find? (fun x => x.id == bid) with
  | none => rw [hf] at hsome; simp at hsome
  | some w =>
      have hrun : admin_confirm adminIds actor db bid =
          ⟨updateStatus (adminConfirmTxn1 db bid) bid "cancelled",
            ([Event.clientConfirmed c b.date b.time] ++
              (if masterTruthy b.master_id then
                [Event.masterConfirmedInfo (b.master_id.getD 0) bid]
              else [])) ++ [Event.clientCancelledByAdmin c], true⟩ := by
        have ha' : actor ∈ adminIds := by simpa using ha
        simp [admin_confirm, ha', hb, one_or_none, hf, hc, chatTruthy, hc0]
      rw [hrun]
      refine ⟨updateStatus_status db bid "confirmed", ?_, ?_, ?_, rfl⟩
      · exact updateStatus_status (adminConfirmTxn1 db bid) bid "cancelled"
      · simp
      · simp

/-- Witness for the amended C3 at a concrete cancelled booking. -/
theorem confirm_on_cancelled_behavior_witness :
    Event.clientConfirmed 100 5 600 ∈
        (admin_confirm [7] 7 [bkCancelled] 1).events ∧
      Event.clientCancelledByAdmin 100 ∈
        (admin_confirm [7] 7 [bkCancelled] 1).events ∧
      (admin_confirm [7] 7 [bkCancelled] 1).ok = true := by
  have h := confirm_on_cancelled_behavior [7] 7 [bkCancelled] 1 bkCancelled 100
    (by decide) (by decide) (by decide) (by decide) (by decide)
  exact ⟨h.2.2.1, h.2.2.2.1, h.2.2.2.2⟩

/-- C4 counterexample.  At `now` = 18:00 on day 0 (`today = 0`, minute
1080), day 0 is among the presented dates and the 10:00 slot (minute 600)
is still offered on the empty table, although `0 * 1440 + 600 <
0 * 1440 + 1080` — a slot strictly in the past is presented as selectable:
no handler compares a candidate time slot against the current time. -/
theorem past_time_slot_still_offered :
    (0 : Nat) ∈ (generate_dates 0 30).take 14 ∧
      600 ∈ booking_date_chosen_slots [] 0 none ∧
      0 * 1440 + 600 < 0 * 1440 + 1080 := by
  decide

/-- C4 amended.  The only past-filtering is on whole dates: the presented
dates are exactly `today … today+13`, so no strictly-past calendar date is
offered; the time slots offered for a date are the fixed template minus the
booked times, with no comparison against the current time, so same-day
times earlier than `now` are still offered. -/
theorem offered_dates_and_slots (today : Nat) (db : List Booking)
    (d : Nat) (m : Option Nat) :
    (∀ d2, d2 ∈ (generate_dates today 30).take 14 ↔
      today ≤ d2 ∧ d2 < today + 14) ∧
      (∀ t, t ∈ booking_date_chosen_slots db d m ↔
        t ∈ default_time_slots ∧ t ∉ get_booked_times_for_date db d m) := by
  constructor
  · intro d2
    rw [generate_dates, ← List.map_take, List.take_range]
    have h14 : (14 : Nat) ⊓ 30 = 14 := by decide
    rw [h14]
    simp only [List.mem_map, List.mem_range]
    constructor
    · rintro ⟨i, hi, rfl⟩
      omega
    · rintro ⟨h1, h2⟩
      exact ⟨d2 - today, by omega, by omega⟩
  · intro t
    rw [booking_date_chosen_slots, List.mem_filter]
    simp [List.contains]

theorem one_or_none_map (f : α → β) (l : List α) :
    (one_or_none (l.map f)).map Option.isNone =
      (one_or_none l).map Option.isNone := by
  cases l with
  | nil => rfl
  | cons a l2 => cases l2 <;> rfl

/-- `markPastOne` never touches the key fields nor produces `"cancelled"`,
so the conflict predicate cannot tell swept rows from unswept ones. -/
theorem markPastOne_matches (now d t : Nat) (m : Option Nat) (b : Booking) :
    bookingMatches d t m (markPastOne now b) = bookingMatches d t m b := by
  rw [markPastOne]
  by_cases h : b.status ≠ "cancelled" ∧ b.status ≠ "past" ∧ instant b < now
  · rw [if_pos h]
    have hs : (b.status != "cancelled") = true := by
      simp [bne_iff_ne]
      exact h.1
    simp [bookingMatches, hs]
  · rw [if_neg h]

theorem markPastOne_idem (now : Nat) (b : Booking) :
    markPastOne now (markPastOne now b) = markPastOne now b := by
  by_cases h : b.status ≠ "cancelled" ∧ b.status ≠ "past" ∧ instant b < now
  · have h1 : markPastOne now b = { b with status := "past" } := by
      rw [markPastOne, if_pos h]
    rw [h1, markPastOne, if_neg]
    rintro ⟨-, hp, -⟩
    exact hp rfl
  · have h1 : markPastOne now b = b := by rw [markPastOne, if_neg h]
    simp [h1]

/-- C7.  `mark_past_bookings` sweeps exactly the non-cancelled, non-past
rows whose instant is strictly before `now` to status `"past"`, leaves all
other rows untouched, is idempotent at the same `now`, and does not release
any slot: the slot-free check is unchanged by the sweep. -/
theorem mark_past_correct (now : Nat) (db : List Booking) (d t : Nat)
    (m : Option Nat) :
    (∀ b ∈ db, b.status ≠ "cancelled" → b.status ≠ "past" →
      instant b < now → { b with status := "past" } ∈ mark_past_bookings now db) ∧
      (∀ b ∈ db, b.status = "cancelled" ∨ b.status = "past" ∨ ¬ instant b < now →
        b ∈ mark_past_bookings now db) ∧
      mark_past_bookings now (mark_past_bookings now db) =
        mark_past_bookings now db ∧
      is_time_slot_free (mark_past_bookings now db) d t m =
        is_time_slot_free db d t m := by
  refine ⟨?_, ?_, ?_, ?_⟩
  · intro b hb h1 h2 h3
    have : markPastOne now b = { b with status := "past" } := by
      rw [markPastOne, if_pos ⟨h1, h2, h3⟩]
    rw [← this]
    exact List.mem_map_of_mem (markPastOne now) hb
  · intro b hb hcond
    have : markPastOne now b = b := by
      rw [markPastOne, if_neg]
      rintro ⟨hc, hp, hlt⟩
      rcases hcond with h | h | h
      · exact hc h
      · exact hp h
      · exact h hlt
    rw [← this]
    exact List.mem_map_of_mem (markPastOne now) hb
  · unfold mark_past_bookings
    rw [List.map_map]
    exact List.map_congr_left (fun b _ => markPastOne_idem now b)
  · unfold is_time_slot_free mark_past_bookings
    rw [List.filter_map]
    rw [List.filter_congr (fun b _ => by
      simp only [Function.comp]
      exact markPastOne_matches now d t m b)]
    exact one_or_none_map (markPastOne now) (db.filter (bookingMatches d t m))

/-- Witness for C7 at a concrete table: the pending booking of day 5,
10:00 is swept to `"past"` by a sweep at day 6 midnight, the sweep is
idempotent there, and the slot stays consumed. -/
theorem mark_past_correct_witness :
    { bkPending with status := "past" } ∈
        mark_past_bookings (6 * 1440) [bkPending] ∧
      mark_past_bookings (6 * 1440) (mark_past_bookings (6 * 1440) [bkPending]) =
        mark_past_bookings (6 * 1440) [bkPending] ∧
      is_time_slot_free (mark_past_bookings (6 * 1440) [bkPending]) 5 600 none =
        is_time_slot_free [bkPending] 5 600 none := by
  have h := mark_past_correct (6 * 1440) [bkPending] 5 600 none
  exact ⟨h.1 bkPending (by decide) (by decide) (by decide) (by decide),
    h.2.2.1, h.2.2.2⟩

/-- C6.  Cancellation releases the slot: when a master cancels an active
(pending/confirmed) booking and no other row occupies the same
`(master_id, date, time)` key, the handler completes normally, notifies the
client, and the slot-free check on that key returns true afterwards. -/
theorem master_cancel_frees_slot (masterIds : List Nat) (users : List SalonUser)
    (actor : Nat) (db : List Booking) (bid : Nat) (b : Booking)
    (hu : (users.filter (fun u => u.telegram_id == actor)).length ≤ 1)
    (hm : masterIds.contains actor = true)
    (hb : db.filter (fun x => x.id == bid) = [b])
    (_hst : b.status = "pending" ∨ b.status = "confirmed")
    (hother : ∀ b2 ∈ db, b2.id ≠ bid →
      bookingMatches b.date b.time b.master_id b2 = false) :
    (master_cancel masterIds users actor db bid).ok = true ∧
      Event.clientCancelledByMaster b.user_id bid ∈
        (master_cancel masterIds users actor db bid).events ∧
      is_time_slot_free (master_cancel masterIds users actor db bid).db
        b.date b.time b.master_id = .ok true := by
  have hm' : actor ∈ masterIds := by simpa using hm
  have hrun : master_cancel masterIds users actor db bid =
      ⟨updateStatus db bid "cancelled",
        [Event.clientCancelledByMaster b.user_id bid], true⟩ := by
    cases hl : users.filter (fun u => u.telegram_id == actor) with
    | nil => simp [master_cancel, hl, one_or_none, hm', hb]
    | cons u l =>
        cases l with
        | nil => simp [master_cancel, hl, one_or_none, hm', hb]
        | cons v l2 =>
            rw [hl] at hu
            simp at hu
  rw [hrun]
  refine ⟨rfl, by simp, ?_⟩
  apply is_free_of_no_match
  intro x hx
  rw [updateStatus, List.mem_map] at hx
  obtain ⟨y, hy, rfl⟩ := hx
  by_cases h : (y.id == bid) = true
  · simp only [h, if_true]
    simp [bookingMatches]
  · rw [if_neg h]
    exact hother y hy (fun he => h (by simp [he]))

/-- Witness for C6: master 9 cancels the pending booking of day 5, 10:00 in
a one-row table; the slot-free check then reports the key free. -/
theorem master_cancel_frees_slot_witness :
    (master_cancel [9] [] 9 [bkPending] 1).ok = true ∧
      Event.clientCancelledByMaster 100 1 ∈
        (master_cancel [9] [] 9 [bkPending] 1).events ∧
      is_time_slot_free (master_cancel [9] [] 9 [bkPending] 1).db
        5 600 none = .ok true := by
  have h := master_cancel_frees_slot [9] [] 9 [bkPending] 1 bkPending
    (by decide) (by decide) (by decide) (Or.inl rfl) (by decide)
  exact h

/-- C8 counterexample.  The phone step accepts `"+12345678"` (it starts
with `+` and has length 9), although it has only 8 digits and therefore
does not match the claimed 10-to-15-digit international pattern. -/
theorem phone_pattern_claim_false :
    booking_phone "+12345678" = PhoneStep.advanced "+12345678" ∧
      spec_phone_ok "+12345678" = false := by
  decide

/-- C8 amended.  The phone-collection step accepts the (stripped) input
iff it starts with `'+'` and its total length is at least 9; the digit
content and the 15-digit upper bound of the claimed pattern are not
checked, and a rejected input re-prompts without advancing. -/
theorem phone_accept_iff (s : String) :
    (∃ p, booking_phone s = PhoneStep.advanced p) ↔
      startsWithPlus s = true ∧ 9 ≤ s.length := by
  rw [booking_phone]
  by_cases h : startsWithPlus s = true ∧ 9 ≤ s.length
  · rw [if_neg (not_not_intro h)]
    simp [h]
  · rw [if_pos h]
    simp [h]

/-- C10.  Conflict-check asymmetry: the slot-free check for a concrete
master `m` only sees rows whose `master_id` equals `m` (an unassigned row
never blocks it, so an unassigned and an assigned active booking can
coexist on one date/time — exhibited concretely on `bkPending` +
`sessM5`), while the check for "any master" is blocked by every
non-cancelled row at that date/time regardless of its master. -/
theorem master_filter_asymmetry (db : List Booking) (d t : Nat) (mNat : Nat)
    (hm : mNat ≠ 0) :
    (∀ b ∈ db, bookingMatches d t (some mNat) b = true →
      b.master_id = some mNat) ∧
      (is_time_slot_free db d t none = .ok true →
        ∀ b ∈ db, b.date = d → b.time = t → b.status ≠ "cancelled" → False) ∧
      ((booking_time_chosen [] [] [bkPending] sessM5 600).db.filter
        (fun b => b.date == 5 && b.time == 600 &&
          b.status != "cancelled")).length = 2 := by
  refine ⟨?_, ?_, by decide⟩
  · intro b hb hmat
    simp [bookingMatches, masterTruthy, hm] at hmat
    exact hmat.2
  · intro hfree b hb hd ht hs
    have hnil := (is_free_ok_true_iff db d t none).mp hfree
    rw [List.filter_eq_nil_iff] at hnil
    exact hnil b hb (by simp [bookingMatches, masterTruthy, hd, ht,
      bne_iff_ne, hs])

/-- Witness for C10: after booking master 5 on top of the unassigned
pending booking, two active rows share day 5, 10:00. -/
theorem master_filter_asymmetry_witness :
    ((booking_time_chosen [] [] [bkPending] sessM5 600).db.filter
      (fun b => b.date == 5 && b.time == 600 &&
        b.status != "cancelled")).length = 2 :=
  (master_filter_asymmetry [bkPending] 5 600 5 (by decide)).2.2

/-! Invariants of the reminder-sweep fold. -/

theorem remindOne_sent_sub (sendOk : Nat → Nat → Bool) (now : Nat)
    (b : Booking) (h : Nat) (acc : List (Nat × Nat) × List Event) :
    acc.1 ⊆ (remindOne sendOk now b h acc).1 := by
  rw [remindOne]
  split_ifs with h1 h2
  · exact fun x hx => hx
  · exact List.subset_cons_self _ _
  · exact fun x hx => hx

theorem remindOne_events (sendOk : Nat → Nat → Bool) (now : Nat)
    (b : Booking) (h : Nat) (acc : List (Nat × Nat) × List Event) :
    ∀ e ∈ (remindOne sendOk now b h acc).2, e ∈ acc.2 ∨
      (e = Event.reminderDue (b.chat_id.getD 0) b.id h ∧
        windowHit (instant b) now h = true ∧ sendOk b.id h = true ∧
        (b.id, h) ∉ acc.1 ∧ (b.id, h) ∈ (remindOne sendOk now b h acc).1) := by
  rw [remindOne]
  split_ifs with h1 h2
  · exact fun e he => Or.inl he
  · intro e he
    rw [List.mem_append] at he
    rcases he with he | he
    · exact Or.inl he
    · rw [List.mem_singleton] at he
      subst he
      obtain ⟨hw, hs⟩ := (Bool.and_eq_true _ _).mp h2
      exact Or.inr ⟨rfl, hw, hs, h1, List.mem_cons_self _ _⟩
  · exact fun e he => Or.inl he

theorem remindBooking_sent_sub (sendOk : Nat → Nat → Bool) (now : Nat)
    (acc : List (Nat × Nat) × List Event) (b : Booking) :
    acc.1 ⊆ (remindBooking sendOk now acc b).1 := by
  rw [remindBooking]
  split_ifs with h1
  · exact (remindOne_sent_sub sendOk now b 24 acc).trans
      (remindOne_sent_sub sendOk now b 2 _)
  · exact fun x hx => hx

theorem remindBooking_events (sendOk : Nat → Nat → Bool) (now : Nat)
    (acc : List (Nat × Nat) × List Event) (b : Booking) :
    ∀ e ∈ (remindBooking sendOk now acc b).2, e ∈ acc.2 ∨
      ∃ h, (h = 24 ∨ h = 2) ∧
        e = Event.reminderDue (b.chat_id.getD 0) b.id h ∧
        chatTruthy b.chat_id = true ∧ windowHit (instant b) now h = true ∧
        sendOk b.id h = true ∧ (b.id, h) ∉ acc.1 ∧
        (b.id, h) ∈ (remindBooking sendOk now acc b).1 := by
  rw [remindBooking]
  split_ifs with hc
  · intro e he
    rcases remindOne_events sendOk now b 2 _ e he with he2 | he2
    · rcases remindOne_events sendOk now b 24 acc e he2 with he3 | he3
      · exact Or.inl he3
      · refine Or.inr ⟨24, Or.inl rfl, he3.1, hc, he3.2.1, he3.2.2.1,
          he3.2.2.2.1, ?_⟩
        exact remindOne_sent_sub sendOk now b 2 _ he3.2.2.2.2
    · refine Or.inr ⟨2, Or.inr rfl, he2.1, hc, he2.2.1, he2.2.2.1, ?_,
        he2.2.2.2.2⟩
      intro hmem
      exact he2.2.2.2.1 (remindOne_sent_sub sendOk now b 24 acc hmem)
  · exact fun e he => Or.inl he

theorem sweep_foldl_sent_sub (sendOk : Nat → Nat → Bool) (now : Nat)
    (l : List Booking) :
    ∀ acc, acc.1 ⊆ (l.foldl (remindBooking sendOk now) acc).1 := by
  induction l with
  | nil => exact fun acc x hx => hx
  | cons b l2 ih =>
      intro acc
      rw [List.foldl_cons]
      exact (remindBooking_sent_sub sendOk now acc b).trans (ih _)

theorem sweep_foldl_events (sendOk : Nat → Nat → Bool) (now : Nat)
    (l : List Booking) :
    ∀ acc, ∀ e ∈ (l.foldl (remindBooking sendOk now) acc).2, e ∈ acc.2 ∨
      ∃ b ∈ l, ∃ h, (h = 24 ∨ h = 2) ∧
        e = Event.reminderDue (b.chat_id.getD 0) b.id h ∧
        chatTruthy b.chat_id = true ∧ windowHit (instant b) now h = true ∧
        sendOk b.id h = true ∧ (b.id, h) ∉ acc.1 ∧
        (b.id, h) ∈ (l.foldl (remindBooking sendOk now) acc).1 := by
  induction l with
  | nil => exact fun acc e he => Or.inl he
  | cons b l2 ih =>
      intro acc e he
      rw [List.foldl_cons] at he ⊢
      rcases ih (remindBooking sendOk now acc b) e he with he2 | he2
      · rcases remindBooking_events sendOk now acc b e he2 with he3 | he3
        · exact Or.inl he3
        · obtain ⟨h, hh, heq, hc, hw, hs, hnm, hm⟩ := he3
          refine Or.inr ⟨b, List.mem_cons_self b l2, h, hh, heq, hc, hw, hs,
            hnm, ?_⟩
          exact sweep_foldl_sent_sub sendOk now l2 _ hm
      · obtain ⟨b2, hb2, h, hh, heq, hc, hw, hs, hnm, hm⟩ := he2
        refine Or.inr ⟨b2, List.mem_cons_of_mem b hb2, h, hh, heq, hc, hw, hs,
          ?_, hm⟩
        intro hmem
        exact hnm (remindBooking_sent_sub sendOk now acc b hmem)

/-- Everything a dispatched reminder event implies: legal threshold, key
not yet in the `sent` set at sweep start, key recorded afterwards, and a
confirmed source booking with a truthy chat whose instant hits the window. -/
theorem reminder_sweep_events (sendOk : Nat → Nat → Bool)
    (sent : List (Nat × Nat)) (db : List Booking) (now : Nat) :
    ∀ c bId h, Event.reminderDue c bId h ∈ (reminder_sweep sendOk sent db now).2 →
      (h = 24 ∨ h = 2) ∧ (bId, h) ∉ sent ∧
        (bId, h) ∈ (reminder_sweep sendOk sent db now).1 ∧
        ∃ bk ∈ db, bk.id = bId ∧ bk.status = "confirmed" ∧
          chatTruthy bk.chat_id = true ∧ c = bk.chat_id.getD 0 ∧
          windowHit (instant bk) now h = true := by
  intro c bId h he
  rw [reminder_sweep] at he ⊢
  rcases sweep_foldl_events sendOk now _ (sent, []) _ he with he2 | he2
  · simp at he2
  · obtain ⟨bk, hbk, h2, hh2, heq, hc2, hw2, hs2, hnm, hm⟩ := he2
    obtain ⟨hceq, hbeq, hheq⟩ : c = bk.chat_id.getD 0 ∧ bId = bk.id ∧ h = h2 := by
      simpa using heq
    subst hceq
    subst hheq
    obtain ⟨hmem, hst⟩ := List.mem_filter.mp hbk
    refine ⟨hh2, by rw [hbeq]; exact hnm, by rw [hbeq]; exact hm,
      bk, hmem, hbeq.symm, by simpa using hst, hc2, rfl, hw2⟩

/-- C9.  A reminder is dispatched only for a confirmed booking with a
reachable chat, only at the 24h or 2h threshold, only when the time to the
visit lies in the ±6-minute window around the threshold, and only when the
`(booking, hours)` key is not yet recorded as sent; a successful dispatch
records the key, so any later sweep starting from the grown `sent` set —
e.g. 5 minutes later, still inside the window — never dispatches the same
`(booking, hours)` reminder again. -/
theorem reminder_fires_once (sendOk : Nat → Nat → Bool)
    (sent : List (Nat × Nat)) (db : List Booking) (now : Nat)
    (db2 : List Booking) (now2 : Nat) :
    (∀ c bId h, Event.reminderDue c bId h ∈ (reminder_sweep sendOk sent db now).2 →
      (h = 24 ∨ h = 2) ∧ (bId, h) ∉ sent ∧
        (bId, h) ∈ (reminder_sweep sendOk sent db now).1 ∧
        ∃ bk ∈ db, bk.id = bId ∧ bk.status = "confirmed" ∧
          chatTruthy bk.chat_id = true ∧ c = bk.chat_id.getD 0 ∧
          windowHit (instant bk) now h = true) ∧
      (∀ c c2 bId h,
        Event.reminderDue c bId h ∈ (reminder_sweep sendOk sent db now).2 →
        Event.reminderDue c2 bId h ∉
          (reminder_sweep sendOk (reminder_sweep sendOk sent db now).1
            db2 now2).2) := by
  refine ⟨reminder_sweep_events sendOk sent db now, ?_⟩
  intro c c2 bId h h1 h2
  have hk1 := (reminder_sweep_events sendOk sent db now c bId h h1).2.2.1
  have hk2 := (reminder_sweep_events sendOk
    (reminder_sweep sendOk sent db now).1 db2 now2 c2 bId h h2).2.1
  exact hk2 hk1

/-- Witness for C9: at exactly 24h before the confirmed visit the reminder
fires and its key is recorded; a second sweep 5 minutes later — still
inside the window — does not fire it again. -/
theorem reminder_fires_once_witness :
    (1, 24) ∈ (reminder_sweep (fun _ _ => true) [] [bkConfirmed] 6360).1 ∧
      Event.reminderDue 100 1 24 ∉
        (reminder_sweep (fun _ _ => true)
          (reminder_sweep (fun _ _ => true) [] [bkConfirmed] 6360).1
          [bkConfirmed] 6365).2 := by
  have h := reminder_fires_once (fun _ _ => true) [] [bkConfirmed] 6360
    [bkConfirmed] 6365
  exact ⟨(h.1 100 1 24 (by decide)).2.2.1, h.2 100 100 1 24 (by decide)⟩

end Manic
